import Mathlib

/-!
Verification development for the Substack scraping pipeline
(`substack_scraper.py`).  The Python source is shallowly embedded:
pure functions become Lean functions over `String`/`List`; the
filesystem and the JSON ledger become explicit state; external
collaborators (the HTTP transport, the `html2text`/`markdown`
libraries, `os.path.relpath`) are abstracted as data or as function
parameters, exactly at the boundaries the source calls them.
-/

namespace Substack

/-! ### Python string primitives

Models of the Python `str` methods the source uses: `str.strip`,
`str.isdigit`, and the `in` substring test. -/

/-- Models Python `str.strip()`: remove whitespace from both ends. -/
def pyStrip (s : String) : String :=
  String.mk (((s.data.dropWhile Char.isWhitespace).reverse.dropWhile Char.isWhitespace).reverse)

/-- Models Python `str.isdigit()` (restricted to ASCII digits): true iff the
string is nonempty and every character is a digit. -/
def pyIsdigit (s : String) : Bool :=
  !s.data.isEmpty && s.data.all Char.isDigit

/-- Models Python `pat in hay` substring containment. -/
def containsSub (hay pat : String) : Bool :=
  hay.data.tails.any (fun t => pat.data.isPrefixOf t)

/-! ### `extract_main_part` (lines 32-34)

`urlparse(url).netloc` is modelled for the base URLs in scope
(`scheme://host[/...]`, no userinfo, no query/fragment): the
characters after the first `//`, up to the next `/`. -/

/-- Characters after the first occurrence of `//` (start of the netloc). -/
def afterDoubleSlash : List Char → List Char
  | [] => []
  | c :: rest =>
    if c = '/' then
      match rest with
      | '/' :: r => r
      | _ => afterDoubleSlash rest
    else afterDoubleSlash rest

/-- Characters up to the first `/` (end of the netloc). -/
def takeUntilSlash : List Char → List Char
  | [] => []
  | c :: rest => if c = '/' then [] else c :: takeUntilSlash rest

/-- Models Python `str.split(sep)` for a one-character separator, on
character lists.  Always returns a nonempty list of fragments. -/
def splitOnCharL (sep : Char) : List Char → List (List Char)
  | [] => [[]]
  | c :: rest =>
    let r := splitOnCharL sep rest
    if c = sep then [] :: r else (c :: r.headD []) :: r.tail

/-- Embeds `extract_main_part` (lines 32-34):
`parts = urlparse(url).netloc.split('.'); return parts[1] if parts[0] == 'www' else parts[0]`.
The out-of-range access `parts[1]` (an `IndexError` in Python when the
netloc is exactly `www`) is modelled with a default. -/
def extract_main_part (url : String) : String :=
  let parts := splitOnCharL '.' (takeUntilSlash (afterDoubleSlash url.data))
  String.mk (if parts.headD [] = ['w', 'w', 'w'] then parts.getD 1 [] else parts.headD [])

/-! ### `filter_urls` (lines 120-121) -/

/-- Embeds `filter_urls`:
`[url for url in urls if all(keyword not in url for keyword in keywords)]`. -/
def filter_urls (urls keywords : List String) : List String :=
  urls.filter (fun url => keywords.all (fun keyword => !containsSub url keyword))

/-! ### URL discovery (lines 83-117)

An HTTP response is modelled as data: either the transport raises
(`requests.get` throwing), or a response with a success flag
(`response.ok`) and a body.  The body either fails to parse
(`ET.fromstring` raising `ParseError`) or parses to a document from
which the sitemap view extracts the `<loc>` texts and the feed view
extracts each `<item>`'s `<link>` element (absent element, or element
with possibly-empty text).  A raised Python exception is `Except.error`. -/

inductive XmlBody where
  | malformed : XmlBody
  | doc (locs : List String) (items : List (Option (Option String))) : XmlBody
deriving DecidableEq

inductive HttpResult where
  | transportError : HttpResult
  | status (ok : Bool) (body : XmlBody) : HttpResult
deriving DecidableEq

/-- Embeds `fetch_urls_from_sitemap` (lines 89-99): on a non-success
status return `[]`; otherwise parse (a `ParseError` propagates) and
collect every `<loc>` text. -/
def fetch_urls_from_sitemap : HttpResult → Except Unit (List String)
  | .transportError => .error ()
  | .status ok body =>
    if !ok then .ok []
    else
      match body with
      | .malformed => .error ()
      | .doc locs _ => .ok locs

/-- Embeds `fetch_urls_from_feed` (lines 101-117): on a non-success
status return `[]`; otherwise parse (a `ParseError` propagates) and
collect `link.text` for every `<item>` whose `<link>` exists and has
truthy text. -/
def fetch_urls_from_feed : HttpResult → Except Unit (List String)
  | .transportError => .error ()
  | .status ok body =>
    if !ok then .ok []
    else
      match body with
      | .malformed => .error ()
      | .doc _ items =>
        .ok (items.filterMap (fun link =>
          match link with
          | some (some t) => if t = "" then none else some t
          | _ => none))

/-- Embeds `get_all_post_urls` (lines 83-87): try the sitemap, fall back
to the feed when it yields an empty list, then apply the keyword filter.
Exceptions raised by either fetch propagate. -/
def get_all_post_urls (sitemapResp feedResp : HttpResult) (keywords : List String) :
    Except Unit (List String) :=
  match fetch_urls_from_sitemap sitemapResp with
  | .error e => .error e
  | .ok urls =>
    match (if urls.isEmpty then fetch_urls_from_feed feedResp else .ok urls) with
    | .error e => .error e
    | .ok urls => .ok (filter_urls urls keywords)

/-! ### Post extraction (lines 195-243)

A parsed document is modelled by the texts the five selectors of
`extract_post_data` can return: `none` models a selector returning no
element, `some s` an element with text `s`. -/

structure Soup where
  titleText : Option String
  subtitleText : Option String
  dateText : Option String
  likeLabelText : Option String
  availableContent : Option String
deriving DecidableEq

/-- Embeds `combine_metadata_and_content` (lines 195-209). -/
def combine_metadata_and_content (title subtitle date like_count content : String) : String :=
  let metadata := "# " ++ title ++ "\n\n"
  let metadata := if subtitle ≠ "" then metadata ++ "## " ++ subtitle ++ "\n\n" else metadata
  let metadata := metadata ++ "**" ++ date ++ "**\n\n"
  let metadata := metadata ++ "**Likes:** " ++ like_count ++ "\n\n"
  metadata ++ content

/-- Embeds `extract_post_data` (lines 211-243).  `m2h` abstracts the
external `html2text` conversion (`html_to_md`).  Returns
`(title, subtitle, like_count, date, md_content)` as the source does,
or `none` when the title is missing/blank or the available-content
container is missing. -/
def extract_post_data (m2h : String → String) (soup : Soup) :
    Option (String × String × String × String × String) :=
  match soup.titleText with
  | none => none
  | some ttext =>
    if pyStrip ttext = "" then none
    else
      let title := pyStrip ttext
      let subtitle :=
        match soup.subtitleText with
        | some s => if s ≠ "" then pyStrip s else ""
        | none => ""
      let date :=
        match soup.dateText with
        | some s => if s ≠ "" then pyStrip s else "Date not found"
        | none => "Date not found"
      let like_count :=
        match soup.likeLabelText with
        | some s => if s ≠ "" ∧ pyIsdigit (pyStrip s) = true then pyStrip s else "0"
        | none => "0"
      match soup.availableContent with
      | none => none
      | some contentHtml =>
        let md := m2h contentHtml
        some (title, subtitle, like_count, date,
          combine_metadata_and_content title subtitle date like_count md)

/-! ### Direct HTTP fetcher (lines 314-327)

`requests.get` + `BeautifulSoup` either raise (modelled as `raiseExn`)
or produce a page, on which `soup.find("h2", class_="paywall-title")`
either finds a marker or not.  `get_url_soup` re-raises any exception
as `ValueError` (`Except.error`), returns `none` for a paywalled page,
and the page's soup otherwise. -/

structure Page where
  hasPaywallTitle : Bool
  soup : Soup
deriving DecidableEq

inductive HttpPage where
  | ok (p : Page) : HttpPage
  | raiseExn : HttpPage
deriving DecidableEq

/-- Embeds `SubstackScraper.get_url_soup` (lines 318-327). -/
def get_url_soup : HttpPage → Except String (Option Soup)
  | .raiseExn => .error "Error fetching page"
  | .ok page => if page.hasPaywallTitle then .ok none else .ok (some page.soup)

/-! ### Archive store (lines 132-260)

The filesystem is an association list path-to-content (paths the run
touches).  `save_to_file` (lines 132-145) never overwrites an existing
path; a Python `open(path, 'w')` write (`save_to_html_file`,
lines 151-180) creates or truncates-and-replaces. -/

structure FS where
  files : List (String × String)
deriving DecidableEq

/-- Models `os.path.exists`. -/
def FS.existsP (fs : FS) (p : String) : Bool :=
  fs.files.any (fun e => decide (e.1 = p))

/-- Embeds `save_to_file` (lines 132-145): no-op when the path already
exists, plain write otherwise. -/
def save_to_file (fs : FS) (p content : String) : FS :=
  if fs.existsP p then fs else ⟨fs.files ++ [(p, content)]⟩

/-- Models a Python `open(path, 'w')` write: replace the content when the
path exists, append the file otherwise. -/
def FS.write (fs : FS) (p content : String) : FS :=
  if fs.existsP p then
    ⟨fs.files.map (fun e => if e.1 = p then (p, content) else e)⟩
  else ⟨fs.files ++ [(p, content)]⟩

/-- Embeds the f-string of `save_to_html_file` (lines 162-177). -/
def htmlPageTemplate (cssPath content : String) : String :=
  "\n            <!DOCTYPE html>\n            <html lang=\"en\">\n            <head>\n                <meta charset=\"UTF-8\">\n                <meta name=\"viewport\" content=\"width=device-width, initial-scale=1.0\">\n                <title>Markdown Content</title>\n                <link rel=\"stylesheet\" href=\"" ++ cssPath ++ "\">\n            </head>\n            <body>\n                <main class=\"markdown-content\">\n                " ++ content ++ "\n                </main>\n            </body>\n            </html>\n        "

/-- Embeds `save_to_html_file` (lines 151-180).  `cssRel` abstracts the
external `os.path.relpath` computation of the stylesheet path from the
target file's directory. -/
def save_to_html_file (cssRel : String → String) (fs : FS) (p content : String) : FS :=
  FS.write fs p (htmlPageTemplate (cssRel p) content)

/-- Embeds `get_filename_from_url` (lines 182-193):
`url.split("/")[-1] + filetype`, prefixing the filetype with a dot when
it lacks one. -/
def get_filename_from_url (url filetype : String) : String :=
  let ft := match filetype.data with
    | '.' :: _ => filetype
    | _ => "." ++ filetype
  String.mk ((splitOnCharL '/' url.data).getLastD []) ++ ft

/-- Ledger record: the dict appended to `essays_data` (lines 295-302),
persisted to the JSON ledger. -/
structure Record where
  title : String
  subtitle : String
  like_count : String
  date : String
  file_link : String
  html_link : String
deriving DecidableEq

/-- Embeds `save_essays_data_to_json` (lines 249-260) as a pure merge:
`existing` is the parsed ledger file when it exists (`none` when
absent); the returned list is what is written back.  With an existing
ledger the source computes
`existing_data + [data for data in essays_data if data not in existing_data]`. -/
def save_essays_data_to_json (existing : Option (List Record)) (essays_data : List Record) :
    List Record :=
  match existing with
  | none => essays_data
  | some existing_data =>
    existing_data ++ essays_data.filter (fun d => decide (d ∉ existing_data))

/-! ### Pipeline orchestrator (`scrape_posts`, lines 262-311)

`get_url_soup` + `extract_post_data` for one URL are abstracted by an
environment `env : String → FetchRes`, giving per URL one of: the soup
fetch returned `None` (`noSoup`, the `continue` at line 280), the
extraction returned `None` (`noData`, the `continue` at line 287), a
raised exception caught at line 305 (`exn`), or a successful
extraction (`post`) carrying the tuple `scrape_posts` destructures. -/

structure PostData where
  title : String
  subtitle : String
  like_count : String
  date : String
  md : String
deriving DecidableEq

inductive FetchRes where
  | noSoup : FetchRes
  | noData : FetchRes
  | exn : FetchRes
  | post (p : PostData) : FetchRes
deriving DecidableEq

/-- Result of one iteration of the `scrape_posts` loop body:
the updated filesystem and `essays_data`, and whether control reached
the `count += 1` at line 307 (`false` exactly on the two `continue`
paths). -/
structure StepRes where
  fs : FS
  essays : List Record
  counted : Bool
deriving DecidableEq

/-- Models `os.path.join(self.md_save_dir, md_filename)` (line 270). -/
def mdPathOf (mdDir url : String) : String :=
  mdDir ++ "/" ++ get_filename_from_url url ".md"

/-- Models `os.path.join(self.html_save_dir, html_filename)` (line 271). -/
def htmlPathOf (htmlDir url : String) : String :=
  htmlDir ++ "/" ++ get_filename_from_url url ".html"

/-- One iteration of the loop body of `scrape_posts` (lines 266-306) for
one URL: skip when the Markdown file exists (line 273), otherwise fetch
and extract via `env`, saving files and appending the record on
success. -/
def scrapeStep (env : String → FetchRes) (m2h cssRel : String → String)
    (mdDir htmlDir : String) (fs : FS) (essays : List Record) (url : String) : StepRes :=
  if fs.existsP (mdPathOf mdDir url) then ⟨fs, essays, true⟩
  else
    match env url with
    | .noSoup => ⟨fs, essays, false⟩
    | .noData => ⟨fs, essays, false⟩
    | .exn => ⟨fs, essays, true⟩
    | .post p =>
      let fs := save_to_file fs (mdPathOf mdDir url) p.md
      let fs := save_to_html_file cssRel fs (htmlPathOf htmlDir url) (m2h p.md)
      ⟨fs, essays ++ [⟨p.title, p.subtitle, p.like_count, p.date,
        mdPathOf mdDir url, htmlPathOf htmlDir url⟩], true⟩

/-- Result of the whole `scrape_posts` loop: final filesystem and
`essays_data`, the number of URLs the loop body ran on (`visited`),
and the final value of `count`. -/
structure LoopRes where
  fs : FS
  essays : List Record
  visited : Nat
  count : Nat
deriving DecidableEq

/-- Embeds the loop of `scrape_posts` (lines 266-309): iterate the step
over the URLs; after a counted iteration increment `count` and break
when a nonzero `num_posts_to_scrape` is reached (line 308). -/
def scrapeLoop (env : String → FetchRes) (m2h cssRel : String → String)
    (mdDir htmlDir : String) (n : Nat) :
    List String → Nat → FS → List Record → LoopRes
  | [], count, fs, essays => ⟨fs, essays, 0, count⟩
  | url :: rest, count, fs, essays =>
    let s := scrapeStep env m2h cssRel mdDir htmlDir fs essays url
    if s.counted then
      if n ≠ 0 ∧ count + 1 = n then ⟨s.fs, s.essays, 1, count + 1⟩
      else
        let r := scrapeLoop env m2h cssRel mdDir htmlDir n rest (count + 1) s.fs s.essays
        ⟨r.fs, r.essays, r.visited + 1, r.count⟩
    else
      let r := scrapeLoop env m2h cssRel mdDir htmlDir n rest count s.fs s.essays
      ⟨r.fs, r.essays, r.visited + 1, r.count⟩

/-- State a full run touches: the filesystem and the ledger file
(`none` when the JSON file does not exist). -/
structure RunState where
  fs : FS
  ledger : Option (List Record)
deriving DecidableEq

/-- Embeds `scrape_posts` (lines 262-311): run the loop starting from
`essays_data = []` and `count = 0`, then merge the collected records
into the ledger via `save_essays_data_to_json`.  (The author-index
regeneration at line 311 is an excluded external collaborator.) -/
def runPipeline (env : String → FetchRes) (m2h cssRel : String → String)
    (mdDir htmlDir : String) (n : Nat) (urls : List String) (st : RunState) : RunState :=
  let r := scrapeLoop env m2h cssRel mdDir htmlDir n urls 0 st.fs []
  ⟨r.fs, some (save_essays_data_to_json st.ledger r.essays)⟩

/-! ## Theorems -/

/-- Filter written from the claim's words: keep exactly the URLs that
contain none of the keywords as substrings. -/
def specKeywordFilter (urls keywords : List String) : List String :=
  urls.filter (fun url => decide (∀ k ∈ keywords, containsSub url k = false))

/-- C8: `filter_urls` returns exactly the sublist (in original order) of
URLs containing none of the keywords as substrings, and applying it
twice with the same keywords equals applying it once. -/
theorem filter_urls_exact_and_idem (urls keywords : List String) :
    filter_urls urls keywords = specKeywordFilter urls keywords
    ∧ (filter_urls urls keywords).Sublist urls
    ∧ filter_urls (filter_urls urls keywords) keywords = filter_urls urls keywords := by
  refine ⟨?_, List.filter_sublist urls, ?_⟩
  · unfold filter_urls specKeywordFilter
    refine List.filter_congr (fun x _ => ?_)
    rw [Bool.eq_iff_iff]
    simp [List.all_eq_true]
  · unfold filter_urls
    rw [List.filter_filter]
    refine List.filter_congr (fun x _ => ?_)
    simp

/-- C4: merging a batch into an existing ledger preserves every persisted
record unchanged and in order (the merged list starts with the old
ledger), and appends at the end exactly the batch records not already
present by full structural equality. -/
theorem merge_preserves_and_appends (ex new : List Record) :
    (save_essays_data_to_json (some ex) new).take ex.length = ex
    ∧ (save_essays_data_to_json (some ex) new).drop ex.length
        = new.filter (fun d => decide (d ∉ ex)) := by
  unfold save_essays_data_to_json
  exact ⟨List.take_left ex _, List.drop_left ex _⟩

/-- C10: the merge deduplicates only against the persisted ledger, never
within the incoming batch: with no ledger file the batch is written
verbatim, and a record absent from the persisted ledger keeps its full
multiplicity from the batch. -/
theorem merge_dedups_only_against_persisted :
    (∀ new : List Record, save_essays_data_to_json none new = new)
    ∧ (∀ (ex new : List Record) (d : Record), d ∉ ex →
        (save_essays_data_to_json (some ex) new).count d = new.count d) := by
  refine ⟨fun new => rfl, fun ex new d hd => ?_⟩
  unfold save_essays_data_to_json
  rw [List.count_append, List.count_filter (by simpa using hd),
    List.count_eq_zero.mpr hd, Nat.zero_add]

/-- Witness for C10 at concrete records: the duplicate pair in the batch
is appended twice. -/
theorem merge_dedups_only_against_persisted_w :
    (save_essays_data_to_json none
        [⟨"b", "", "0", "d", "f", "h"⟩, ⟨"b", "", "0", "d", "f", "h"⟩]
      = [⟨"b", "", "0", "d", "f", "h"⟩, ⟨"b", "", "0", "d", "f", "h"⟩])
    ∧ (save_essays_data_to_json (some [⟨"a", "", "0", "d", "f", "h"⟩])
        [⟨"b", "", "0", "d", "f", "h"⟩, ⟨"b", "", "0", "d", "f", "h"⟩]).count
          ⟨"b", "", "0", "d", "f", "h"⟩
      = ([⟨"b", "", "0", "d", "f", "h"⟩, ⟨"b", "", "0", "d", "f", "h"⟩] :
          List Record).count ⟨"b", "", "0", "d", "f", "h"⟩ :=
  ⟨merge_dedups_only_against_persisted.1 _,
    merge_dedups_only_against_persisted.2 _ _ _ (by decide)⟩

/-- C2 counterexample: a malformed sitemap XML body, and a sitemap
transport error, each abort the whole discovery with an exception even
though the feed would have produced a URL; the claim says discovery
should fall back to the feed instead of aborting. -/
theorem discovery_malformed_aborts :
    get_all_post_urls (.status true .malformed)
        (.status true (.doc [] [some (some "https://pub.example/p/a")]))
        ["about", "archive", "podcast"] = .error ()
    ∧ get_all_post_urls .transportError
        (.status true (.doc [] [some (some "https://pub.example/p/a")]))
        ["about", "archive", "podcast"] = .error () :=
  ⟨rfl, rfl⟩

/-- C2 amended: discovery falls back to the feed exactly when the
sitemap request returns a non-success status (yielding `[]`) or parses
to an empty URL list; a transport error or malformed XML from the
sitemap raises and aborts the whole discovery; and an empty result
from both sources yields `[]` without raising. -/
theorem discovery_fallback_amended (body : XmlBody) (feed : HttpResult) (ks : List String) :
    (get_all_post_urls (.status false body) feed ks
      = (fetch_urls_from_feed feed).map (fun urls => filter_urls urls ks))
    ∧ (∀ items, get_all_post_urls (.status true (.doc [] items)) feed ks
        = (fetch_urls_from_feed feed).map (fun urls => filter_urls urls ks))
    ∧ (∀ locs items, locs ≠ [] →
        get_all_post_urls (.status true (.doc locs items)) feed ks
          = .ok (filter_urls locs ks))
    ∧ get_all_post_urls .transportError feed ks = .error ()
    ∧ get_all_post_urls (.status true .malformed) feed ks = .error ()
    ∧ (∀ s, fetch_urls_from_sitemap s = .ok [] → fetch_urls_from_feed feed = .ok [] →
        get_all_post_urls s feed ks = .ok []) := by
  refine ⟨?_, ?_, ?_, rfl, rfl, ?_⟩
  · cases feed with
    | transportError => rfl
    | status ok body' => cases ok <;> cases body' <;> rfl
  · intro items
    cases feed with
    | transportError => rfl
    | status ok body' => cases ok <;> cases body' <;> rfl
  · intro locs items hlocs
    cases locs with
    | nil => exact absurd rfl hlocs
    | cons u rest => rfl
  · intro s h1 h2
    unfold get_all_post_urls
    rw [h1]
    simp [h2, filter_urls]

/-- Witness for C2 amended, realizing the spec's scenarios: a sitemap
with a post URL and an archive URL is kept and keyword-filtered without
consulting the feed; and a successfully fetched but empty sitemap falls
back to a nonempty feed, whose two item links are returned filtered. -/
theorem discovery_fallback_amended_w :
    get_all_post_urls
        (.status true (.doc ["https://pub.example/p/a", "https://pub.example/archive"] []))
        (.status true (.doc [] []))
        ["about", "archive", "podcast"]
      = .ok (filter_urls ["https://pub.example/p/a", "https://pub.example/archive"]
          ["about", "archive", "podcast"])
    ∧ get_all_post_urls
        (.status true (.doc [] []))
        (.status true (.doc []
          [some (some "https://pub.example/p/b"), some (some "https://pub.example/p/c")]))
        ["about", "archive", "podcast"]
      = (fetch_urls_from_feed (.status true (.doc []
          [some (some "https://pub.example/p/b"), some (some "https://pub.example/p/c")]))).map
          (fun urls => filter_urls urls ["about", "archive", "podcast"]) :=
  ⟨(discovery_fallback_amended (.doc [] []) (.status true (.doc [] []))
      ["about", "archive", "podcast"]).2.2.1 _ [] (by decide),
    (discovery_fallback_amended (.doc [] [])
      (.status true (.doc []
        [some (some "https://pub.example/p/b"), some (some "https://pub.example/p/c")]))
      ["about", "archive", "podcast"]).2.1 []⟩

/-- C7: a page carrying the paywall marker makes the unauthenticated
fetcher return `ok none` (absent, not an error), and an orchestrator
step whose fetch yields no soup changes neither the filesystem nor the
collected records, so nothing of a premium post is saved. -/
theorem paywalled_fetch_absent (page : Page) (hp : page.hasPaywallTitle = true) :
    get_url_soup (.ok page) = .ok none
    ∧ (∀ env m2h cssRel mdDir htmlDir fs es url, env url = .noSoup →
        (scrapeStep env m2h cssRel mdDir htmlDir fs es url).fs = fs
        ∧ (scrapeStep env m2h cssRel mdDir htmlDir fs es url).essays = es) := by
  constructor
  · simp [get_url_soup, hp]
  · intro env m2h cssRel mdDir htmlDir fs es url henv
    simp only [scrapeStep, henv]
    split <;> exact ⟨rfl, rfl⟩

/-- Witness for C7 at a concrete paywalled page and a concrete step. -/
theorem paywalled_fetch_absent_w :
    get_url_soup (.ok ⟨true, ⟨none, none, none, none, none⟩⟩) = .ok none
    ∧ (∀ env m2h cssRel mdDir htmlDir fs es url, env url = .noSoup →
        (scrapeStep env m2h cssRel mdDir htmlDir fs es url).fs = fs
        ∧ (scrapeStep env m2h cssRel mdDir htmlDir fs es url).essays = es) :=
  paywalled_fetch_absent ⟨true, ⟨none, none, none, none, none⟩⟩ rfl

/-- C5: extraction returns `none` exactly when the title element is
missing or its stripped text is blank, or the available-content
container is missing; a missing subtitle never causes failure and
yields the empty string. -/
theorem extract_absent_iff (m2h : String → String) (soup : Soup) :
    (extract_post_data m2h soup = none ↔
      ((∀ t, soup.titleText = some t → pyStrip t = "") ∨ soup.availableContent = none))
    ∧ (∀ r, extract_post_data m2h soup = some r → soup.subtitleText = none → r.2.1 = "") := by
  obtain ⟨tt, st, dt, lt, ac⟩ := soup
  cases tt with
  | none =>
    constructor
    · simp [extract_post_data]
    · intro r hr
      simp [extract_post_data] at hr
  | some t =>
    by_cases ht : pyStrip t = ""
    · constructor
      · simp [extract_post_data, ht]
      · intro r hr
        simp [extract_post_data, ht] at hr
    · cases ac with
      | none =>
        constructor
        · simp [extract_post_data, ht]
        · intro r hr
          simp [extract_post_data, ht] at hr
      | some c =>
        constructor
        · simp [extract_post_data, ht]
        · intro r hr hst
          subst hst
          simp [extract_post_data, ht] at hr
          subst hr
          rfl

/-- Witness for C5: a document with missing title yields `none`; one
with title and content but no subtitle succeeds with empty subtitle. -/
theorem extract_absent_iff_w :
    extract_post_data id ⟨none, none, none, none, some "<div>c</div>"⟩ = none
    ∧ (∀ r, extract_post_data id ⟨some "T", none, none, none, some "<div>c</div>"⟩ = some r →
        r.2.1 = "") :=
  ⟨(extract_absent_iff id ⟨none, none, none, none, some "<div>c</div>"⟩).1.mpr
      (Or.inl (fun t h => by cases h)),
    fun r hr =>
      (extract_absent_iff id ⟨some "T", none, none, none, some "<div>c</div>"⟩).2 r hr rfl⟩

/-- C6: on a successful extraction, the like count equals the label's
stripped text exactly when that text is a nonempty digit string, and is
`"0"` otherwise; a missing date element yields the literal placeholder
`"Date not found"`. -/
theorem extract_like_count_and_date (m2h : String → String) (soup : Soup)
    (r : String × String × String × String × String)
    (hr : extract_post_data m2h soup = some r) :
    (∀ s, soup.likeLabelText = some s →
      ((r.2.2.1 = pyStrip s ↔ pyIsdigit (pyStrip s) = true)
       ∧ (pyIsdigit (pyStrip s) = false → r.2.2.1 = "0")))
    ∧ (soup.likeLabelText = none → r.2.2.1 = "0")
    ∧ (soup.dateText = none → r.2.2.2.1 = "Date not found") := by
  obtain ⟨tt, st, dt, lt, ac⟩ := soup
  cases tt with
  | none => simp [extract_post_data] at hr
  | some t =>
    by_cases ht : pyStrip t = ""
    · simp [extract_post_data, ht] at hr
    · cases ac with
      | none => simp [extract_post_data, ht] at hr
      | some c =>
        simp only [extract_post_data, ht, if_false, Option.some.injEq] at hr
        refine ⟨fun s hs => ?_, fun hl => ?_, fun hd => ?_⟩
        · subst hs
          subst hr
          by_cases hse : s = ""
          · subst hse
            constructor
            · simp
              constructor
              · intro h
                exact absurd h.symm (by decide)
              · intro h
                rw [show pyStrip "" = "" from rfl] at h
                exact absurd h (by decide)
            · intro _
              simp
          · by_cases hdig : pyIsdigit (pyStrip s) = true
            · simp [hse, hdig]
            · simp [hse, hdig]
              intro h
              have hzero : pyIsdigit (pyStrip s) = true := by rw [← h]; decide
              exact hdig hzero
        · subst hl
          subst hr
          simp
        · subst hd
          subst hr
          simp

/-- Witness for C6: a like-count label of `"42"` is retained verbatim,
at a concrete successfully-extracted document. -/
theorem extract_like_count_and_date_w :
    ((("T", "", "42", "Date not found",
        combine_metadata_and_content "T" "" "Date not found" "42" "c") :
          String × String × String × String × String).2.2.1 = pyStrip "42"
      ↔ pyIsdigit (pyStrip "42") = true) :=
  ((extract_like_count_and_date id ⟨some "T", none, none, some "42", some "c"⟩
    ("T", "", "42", "Date not found",
      combine_metadata_and_content "T" "" "Date not found" "42" "c")
    (by decide)).1 "42" rfl).1

/-! ### Lemmas about the netloc parsing, for C9 -/

theorem afterDoubleSlash_append {l : List Char} (r : List Char) (h : '/' ∉ l) :
    afterDoubleSlash (l ++ '/' :: '/' :: r) = r := by
  induction l with
  | nil => simp [afterDoubleSlash]
  | cons c l ih =>
    simp only [List.mem_cons, not_or] at h
    have hc : ¬(c = '/') := fun hc => h.1 hc.symm
    simp only [List.cons_append, afterDoubleSlash, if_neg hc]
    exact ih h.2

theorem takeUntilSlash_of_not_mem {l : List Char} (h : '/' ∉ l) :
    takeUntilSlash l = l := by
  induction l with
  | nil => rfl
  | cons c l ih =>
    simp only [List.mem_cons, not_or] at h
    have hc : ¬(c = '/') := fun hc => h.1 hc.symm
    simp only [takeUntilSlash, if_neg hc]
    exact congrArg (List.cons c) (ih h.2)

theorem takeUntilSlash_append (l r : List Char) (h : '/' ∉ l) :
    takeUntilSlash (l ++ '/' :: r) = l := by
  induction l with
  | nil => simp [takeUntilSlash]
  | cons c l ih =>
    simp only [List.mem_cons, not_or] at h
    have hc : ¬(c = '/') := fun hc => h.1 hc.symm
    simp only [List.cons_append, takeUntilSlash, if_neg hc]
    exact congrArg (List.cons c) (ih h.2)

theorem splitOnCharL_ne_nil (sep : Char) (l : List Char) : splitOnCharL sep l ≠ [] := by
  cases l with
  | nil => simp [splitOnCharL]
  | cons c rest =>
    simp only [splitOnCharL]
    split <;> simp

theorem splitOnCharL_www (l : List Char) :
    splitOnCharL '.' ('w' :: 'w' :: 'w' :: '.' :: l)
      = ['w', 'w', 'w'] :: splitOnCharL '.' l := by
  simp [splitOnCharL]

/-- C9: the canonical writer name produced by `extract_main_part` from a
base URL `scheme://host` is the same with or without a trailing slash
and with or without a leading `www.` subdomain component, whenever the
scheme and host contain no slash and the host does not itself start
with a `www` label. -/
theorem extract_main_part_canonical (scheme host : String)
    (hs : '/' ∉ scheme.data) (hh : '/' ∉ host.data)
    (hw : (splitOnCharL '.' host.data).headD [] ≠ ['w', 'w', 'w']) :
    extract_main_part (scheme ++ "://" ++ host ++ "/")
        = extract_main_part (scheme ++ "://" ++ host)
    ∧ extract_main_part (scheme ++ "://www." ++ host)
        = extract_main_part (scheme ++ "://" ++ host)
    ∧ extract_main_part (scheme ++ "://www." ++ host ++ "/")
        = extract_main_part (scheme ++ "://" ++ host) := by
  have hcolon : '/' ∉ scheme.data ++ [':'] := by
    simp only [List.mem_append, List.mem_singleton, not_or]
    exact ⟨hs, by decide⟩
  have hwww : '/' ∉ ('w' :: 'w' :: 'w' :: '.' :: host.data) := by
    simp only [List.mem_cons, not_or]
    exact ⟨by decide, by decide, by decide, by decide, hh⟩
  have hdata : ∀ tail : String, (scheme ++ "://" ++ tail).data
      = (scheme.data ++ [':']) ++ '/' :: '/' :: tail.data := by
    intro tail
    simp [String.data_append, List.append_assoc]
  have hdata2 : ∀ tail : String, (scheme ++ "://www." ++ tail).data
      = (scheme.data ++ [':']) ++ '/' :: '/' :: ('w' :: 'w' :: 'w' :: '.' :: tail.data) := by
    intro tail
    simp [String.data_append, List.append_assoc]
  obtain ⟨a, t, hsp⟩ : ∃ a t, splitOnCharL '.' host.data = a :: t := by
    cases h : splitOnCharL '.' host.data with
    | nil => exact absurd h (splitOnCharL_ne_nil _ _)
    | cons a t => exact ⟨a, t, rfl⟩
  rw [hsp] at hw
  simp only [List.headD_cons] at hw
  have hplain : extract_main_part (scheme ++ "://" ++ host) = String.mk a := by
    unfold extract_main_part
    rw [hdata host, afterDoubleSlash_append _ hcolon, takeUntilSlash_of_not_mem hh, hsp]
    simp [hw]
  have hslash : extract_main_part (scheme ++ "://" ++ host ++ "/") = String.mk a := by
    unfold extract_main_part
    have hd : (scheme ++ "://" ++ host ++ "/").data
        = (scheme.data ++ [':']) ++ '/' :: '/' :: (host.data ++ '/' :: []) := by
      simp [String.data_append, List.append_assoc]
    rw [hd, afterDoubleSlash_append _ hcolon, takeUntilSlash_append _ _ hh, hsp]
    simp [hw]
  have hwwwcase : extract_main_part (scheme ++ "://www." ++ host) = String.mk a := by
    unfold extract_main_part
    rw [hdata2 host, afterDoubleSlash_append _ hcolon, takeUntilSlash_of_not_mem hwww,
      splitOnCharL_www, hsp]
    simp
  have hwwwslash : extract_main_part (scheme ++ "://www." ++ host ++ "/") = String.mk a := by
    unfold extract_main_part
    have hd : (scheme ++ "://www." ++ host ++ "/").data
        = (scheme.data ++ [':'])
            ++ '/' :: '/' :: ('w' :: 'w' :: 'w' :: '.' :: (host.data ++ '/' :: [])) := by
      simp [String.data_append, List.append_assoc]
    have hta : takeUntilSlash ('w' :: 'w' :: 'w' :: '.' :: (host.data ++ '/' :: []))
        = 'w' :: 'w' :: 'w' :: '.' :: host.data := by
      simpa using takeUntilSlash_append ('w' :: 'w' :: 'w' :: '.' :: host.data) [] hwww
    rw [hd, afterDoubleSlash_append _ hcolon, hta, splitOnCharL_www, hsp]
    simp
  exact ⟨hslash.trans hplain.symm, hwwwcase.trans hplain.symm, hwwwslash.trans hplain.symm⟩

/-- Witness for C9 at a concrete publication URL. -/
theorem extract_main_part_canonical_w :
    extract_main_part "https://thefitzwilliam.com/"
        = extract_main_part "https://thefitzwilliam.com"
    ∧ extract_main_part "https://www.thefitzwilliam.com"
        = extract_main_part "https://thefitzwilliam.com"
    ∧ extract_main_part "https://www.thefitzwilliam.com/"
        = extract_main_part "https://thefitzwilliam.com" :=
  extract_main_part_canonical "https" "thefitzwilliam.com" (by decide) (by decide) (by decide)

/-! ### Lemmas about the post-count cap, for C1 -/

theorem scrapeLoop_count_reaches (env : String → FetchRes) (m2h cssRel : String → String)
    (mdDir htmlDir : String) (n : Nat) (hn : n ≠ 0) :
    ∀ (urls : List String) (count : Nat) (fs : FS) (es : List Record), count < n →
      (scrapeLoop env m2h cssRel mdDir htmlDir n urls count fs es).count = n
      ∨ ((scrapeLoop env m2h cssRel mdDir htmlDir n urls count fs es).count < n
         ∧ (scrapeLoop env m2h cssRel mdDir htmlDir n urls count fs es).visited
             = urls.length) := by
  intro urls
  induction urls with
  | nil =>
    intro count fs es hc
    exact Or.inr ⟨hc, rfl⟩
  | cons url rest ih =>
    intro count fs es hc
    simp only [scrapeLoop]
    split
    · split
      · rename_i hstop
        exact Or.inl hstop.2
      · rename_i hstop
        have hlt : count + 1 < n := by
          rcases Nat.lt_or_ge (count + 1) n with h | h
          · exact h
          · exact absurd ⟨hn, Nat.le_antisymm (Nat.succ_le_of_lt hc) h⟩ hstop
        rcases ih (count + 1) _ _ hlt with h | h
        · exact Or.inl h
        · exact Or.inr ⟨h.1, by simp [h.2]⟩
    · rcases ih count _ _ hc with h | h
      · exact Or.inl h
      · exact Or.inr ⟨h.1, by simp [h.2]⟩

theorem scrapeLoop_zero_visits_all (env : String → FetchRes) (m2h cssRel : String → String)
    (mdDir htmlDir : String) :
    ∀ (urls : List String) (count : Nat) (fs : FS) (es : List Record),
      (scrapeLoop env m2h cssRel mdDir htmlDir 0 urls count fs es).visited = urls.length := by
  intro urls
  induction urls with
  | nil => intro count fs es; rfl
  | cons url rest ih =>
    intro count fs es
    simp only [scrapeLoop, ne_eq, not_true_eq_false, false_and, if_false]
    split <;> simp [ih]

/-- C1 counterexample: with a post-count limit of 1 over two discovered
URLs, where the first URL's fetch yields no soup (a failed attempt) and
the second extracts successfully, the loop body runs on both URLs — 2
attempts, not the 1 the claim demands, because the failure path
`continue`s past the counter. -/
theorem scrape_cap_counts_cex :
    (scrapeLoop
        (fun u => if u = "https://pub.example/p/a" then FetchRes.noSoup
                  else .post ⟨"t", "s", "0", "d", "m"⟩)
        id id "md" "html" 1
        ["https://pub.example/p/a", "https://pub.example/p/b"] 0 ⟨[]⟩ []).visited = 2
    ∧ (2 : Nat) ≠ 1 := by
  constructor
  · decide
  · decide

/-- C1 amended: with a nonzero limit `n`, `scrape_posts` stops after
exactly `n` counted attempts — counting URLs skipped because their
Markdown file exists, URLs processed to completion, and URLs whose
processing raises an exception, but not URLs skipped because the fetch
returned no document or extraction returned no data — unless the URL
list is exhausted with fewer than `n` counted attempts; a limit of 0
runs the loop body on every discovered URL. -/
theorem scrape_cap_amended (env : String → FetchRes) (m2h cssRel : String → String)
    (mdDir htmlDir : String) (n : Nat) (urls : List String) (fs : FS) (es : List Record) :
    (n ≠ 0 →
      (scrapeLoop env m2h cssRel mdDir htmlDir n urls 0 fs es).count = n
      ∨ ((scrapeLoop env m2h cssRel mdDir htmlDir n urls 0 fs es).count < n
         ∧ (scrapeLoop env m2h cssRel mdDir htmlDir n urls 0 fs es).visited = urls.length))
    ∧ (scrapeLoop env m2h cssRel mdDir htmlDir 0 urls 0 fs es).visited = urls.length :=
  ⟨fun hn => scrapeLoop_count_reaches env m2h cssRel mdDir htmlDir n hn urls 0 fs es
      (Nat.pos_of_ne_zero hn),
    scrapeLoop_zero_visits_all env m2h cssRel mdDir htmlDir urls 0 fs es⟩

/-- Witness for C1 amended: with a limit of 2 against 5 discovered URLs
whose first Markdown file already exists on disk, the final counter is
exactly 2 (the spec's own scenario, under the amended counting). -/
theorem scrape_cap_amended_w :
    (scrapeLoop (fun _ => FetchRes.post ⟨"t", "s", "0", "d", "m"⟩) id id "md" "html" 2
        ["https://p.e/p/a", "https://p.e/p/b", "https://p.e/p/c", "https://p.e/p/d",
          "https://p.e/p/e"] 0 ⟨[("md/a.md", "x")]⟩ []).count = 2
    ∨ ((scrapeLoop (fun _ => FetchRes.post ⟨"t", "s", "0", "d", "m"⟩) id id "md" "html" 2
        ["https://p.e/p/a", "https://p.e/p/b", "https://p.e/p/c", "https://p.e/p/d",
          "https://p.e/p/e"] 0 ⟨[("md/a.md", "x")]⟩ []).count < 2
       ∧ (scrapeLoop (fun _ => FetchRes.post ⟨"t", "s", "0", "d", "m"⟩) id id "md" "html" 2
        ["https://p.e/p/a", "https://p.e/p/b", "https://p.e/p/c", "https://p.e/p/d",
          "https://p.e/p/e"] 0 ⟨[("md/a.md", "x")]⟩ []).visited = 5) :=
  (scrape_cap_amended (fun _ => FetchRes.post ⟨"t", "s", "0", "d", "m"⟩) id id "md" "html" 2
    ["https://p.e/p/a", "https://p.e/p/b", "https://p.e/p/c", "https://p.e/p/d",
      "https://p.e/p/e"] ⟨[("md/a.md", "x")]⟩ []).1 (by decide)

/-! ### Lemmas about filesystem growth and re-running, for C3 -/

theorem existsP_save_to_file {fs : FS} {q : String} (p c : String)
    (h : fs.existsP q = true) : (save_to_file fs p c).existsP q = true := by
  unfold save_to_file
  split
  · exact h
  · simp only [FS.existsP, List.any_append] at h ⊢
    simp [h]

theorem existsP_write {fs : FS} {q : String} (p c : String)
    (h : fs.existsP q = true) : (FS.write fs p c).existsP q = true := by
  unfold FS.write
  split
  · simp only [FS.existsP, List.any_eq_true, decide_eq_true_eq] at h ⊢
    obtain ⟨e, he, hq⟩ := h
    refine ⟨if e.1 = p then (p, c) else e, List.mem_map_of_mem _ he, ?_⟩
    split
    · rename_i hep
      rw [← hep, hq]
    · exact hq
  · simp only [FS.existsP, List.any_append] at h ⊢
    simp [h]

theorem existsP_save_to_file_self (fs : FS) (p c : String) :
    (save_to_file fs p c).existsP p = true := by
  unfold save_to_file
  split
  · assumption
  · simp [FS.existsP, List.any_append]

theorem existsP_scrapeStep (env : String → FetchRes) (m2h cssRel : String → String)
    (mdDir htmlDir : String) (fs : FS) (es : List Record) (url : String) {q : String}
    (h : fs.existsP q = true) :
    (scrapeStep env m2h cssRel mdDir htmlDir fs es url).fs.existsP q = true := by
  unfold scrapeStep
  split
  · exact h
  · split
    · exact h
    · exact h
    · exact h
    · exact existsP_write _ _ (existsP_save_to_file _ _ h)

theorem existsP_scrapeLoop (env : String → FetchRes) (m2h cssRel : String → String)
    (mdDir htmlDir : String) (n : Nat) :
    ∀ (urls : List String) (count : Nat) (fs : FS) (es : List Record) {q : String},
      fs.existsP q = true →
      (scrapeLoop env m2h cssRel mdDir htmlDir n urls count fs es).fs.existsP q = true := by
  intro urls
  induction urls with
  | nil => intro count fs es q h; exact h
  | cons url rest ih =>
    intro count fs es q h
    simp only [scrapeLoop]
    split
    · split
      · exact existsP_scrapeStep env m2h cssRel mdDir htmlDir fs es url h
      · exact ih _ _ _ (existsP_scrapeStep env m2h cssRel mdDir htmlDir fs es url h)
    · exact ih _ _ _ (existsP_scrapeStep env m2h cssRel mdDir htmlDir fs es url h)

/-- Characterization of the loop step when the Markdown file exists. -/
theorem scrapeStep_exists (env : String → FetchRes) (m2h cssRel : String → String)
    (mdDir htmlDir : String) (fs : FS) (es : List Record) (url : String)
    (h : fs.existsP (mdPathOf mdDir url) = true) :
    scrapeStep env m2h cssRel mdDir htmlDir fs es url = ⟨fs, es, true⟩ := by
  simp [scrapeStep, h]

/-- Characterization of the loop step on an unfetchable URL. -/
theorem scrapeStep_noSoup (env : String → FetchRes) (m2h cssRel : String → String)
    (mdDir htmlDir : String) (fs : FS) (es : List Record) (url : String)
    (h : fs.existsP (mdPathOf mdDir url) = false) (henv : env url = .noSoup) :
    scrapeStep env m2h cssRel mdDir htmlDir fs es url = ⟨fs, es, false⟩ := by
  simp [scrapeStep, h, henv]

/-- Characterization of the loop step on an unextractable URL. -/
theorem scrapeStep_noData (env : String → FetchRes) (m2h cssRel : String → String)
    (mdDir htmlDir : String) (fs : FS) (es : List Record) (url : String)
    (h : fs.existsP (mdPathOf mdDir url) = false) (henv : env url = .noData) :
    scrapeStep env m2h cssRel mdDir htmlDir fs es url = ⟨fs, es, false⟩ := by
  simp [scrapeStep, h, henv]

/-- Characterization of the loop step on a URL raising an exception. -/
theorem scrapeStep_exn (env : String → FetchRes) (m2h cssRel : String → String)
    (mdDir htmlDir : String) (fs : FS) (es : List Record) (url : String)
    (h : fs.existsP (mdPathOf mdDir url) = false) (henv : env url = .exn) :
    scrapeStep env m2h cssRel mdDir htmlDir fs es url = ⟨fs, es, true⟩ := by
  simp [scrapeStep, h, henv]

/-- Characterization of the loop step on a successfully extracted URL. -/
theorem scrapeStep_post (env : String → FetchRes) (m2h cssRel : String → String)
    (mdDir htmlDir : String) (fs : FS) (es : List Record) (url : String) {p : PostData}
    (h : fs.existsP (mdPathOf mdDir url) = false) (henv : env url = .post p) :
    scrapeStep env m2h cssRel mdDir htmlDir fs es url
      = ⟨save_to_html_file cssRel (save_to_file fs (mdPathOf mdDir url) p.md)
            (htmlPathOf htmlDir url) (m2h p.md),
          es ++ [⟨p.title, p.subtitle, p.like_count, p.date,
            mdPathOf mdDir url, htmlPathOf htmlDir url⟩], true⟩ := by
  simp [scrapeStep, h, henv]

/-- Unfolding of the loop on a cons cell whose step is counted. -/
theorem scrapeLoop_cons_counted {env : String → FetchRes} {m2h cssRel : String → String}
    {mdDir htmlDir : String} {n : Nat} {url : String} {rest : List String}
    {count : Nat} {fs fs' : FS} {es es' : List Record}
    (hs : scrapeStep env m2h cssRel mdDir htmlDir fs es url = ⟨fs', es', true⟩) :
    scrapeLoop env m2h cssRel mdDir htmlDir n (url :: rest) count fs es
      = if n ≠ 0 ∧ count + 1 = n then ⟨fs', es', 1, count + 1⟩
        else
          ⟨(scrapeLoop env m2h cssRel mdDir htmlDir n rest (count + 1) fs' es').fs,
           (scrapeLoop env m2h cssRel mdDir htmlDir n rest (count + 1) fs' es').essays,
           (scrapeLoop env m2h cssRel mdDir htmlDir n rest (count + 1) fs' es').visited + 1,
           (scrapeLoop env m2h cssRel mdDir htmlDir n rest (count + 1) fs' es').count⟩ := by
  simp only [scrapeLoop, hs]
  rfl

/-- Unfolding of the loop on a cons cell whose step is uncounted. -/
theorem scrapeLoop_cons_uncounted {env : String → FetchRes} {m2h cssRel : String → String}
    {mdDir htmlDir : String} {n : Nat} {url : String} {rest : List String}
    {count : Nat} {fs fs' : FS} {es es' : List Record}
    (hs : scrapeStep env m2h cssRel mdDir htmlDir fs es url = ⟨fs', es', false⟩) :
    scrapeLoop env m2h cssRel mdDir htmlDir n (url :: rest) count fs es
      = ⟨(scrapeLoop env m2h cssRel mdDir htmlDir n rest count fs' es').fs,
         (scrapeLoop env m2h cssRel mdDir htmlDir n rest count fs' es').essays,
         (scrapeLoop env m2h cssRel mdDir htmlDir n rest count fs' es').visited + 1,
         (scrapeLoop env m2h cssRel mdDir htmlDir n rest count fs' es').count⟩ := by
  simp only [scrapeLoop, hs]
  rfl

theorem counts_bump_right {n c1 c2 : Nat} (hc : n = 0 ∨ (c1 ≤ c2 ∧ c2 < n))
    (hstop2 : ¬(n ≠ 0 ∧ c2 + 1 = n)) : n = 0 ∨ (c1 ≤ c2 + 1 ∧ c2 + 1 < n) := by
  rcases hc with hc | hc
  · exact Or.inl hc
  · refine Or.inr ⟨Nat.le_succ_of_le hc.1, ?_⟩
    have hn : n ≠ 0 := Nat.pos_iff_ne_zero.mp (Nat.lt_of_le_of_lt (Nat.zero_le _) hc.2)
    rcases Nat.lt_or_ge (c2 + 1) n with h | h
    · exact h
    · exact absurd ⟨hn, Nat.le_antisymm (Nat.succ_le_of_lt hc.2) h⟩ hstop2

theorem counts_bump_both {n c1 c2 : Nat} (hc : n = 0 ∨ (c1 ≤ c2 ∧ c2 < n))
    (hstop2 : ¬(n ≠ 0 ∧ c2 + 1 = n)) : n = 0 ∨ (c1 + 1 ≤ c2 + 1 ∧ c2 + 1 < n) := by
  rcases counts_bump_right hc hstop2 with h | h
  · exact Or.inl h
  · rcases hc with hc | hc
    · exact Or.inl hc
    · exact Or.inr ⟨Nat.succ_le_succ hc.1, h.2⟩

theorem counts_stop_eq {n c1 c2 : Nat} (hc : n = 0 ∨ (c1 ≤ c2 ∧ c2 < n))
    (hstop1 : n ≠ 0 ∧ c1 + 1 = n) : n ≠ 0 ∧ c2 + 1 = n := by
  rcases hc with hc | hc
  · exact absurd hc hstop1.1
  · have h2n : c2 < c1 + 1 := by rw [hstop1.2]; exact hc.2
    have hle21 : c2 ≤ c1 := Nat.lt_succ_iff.mp h2n
    exact ⟨hstop1.1, by rw [Nat.le_antisymm hle21 hc.1]; exact hstop1.2⟩

/-- Re-running the scrape loop over the same URLs, starting from any
filesystem that already contains everything a first run left behind,
changes nothing: no file is written and no record is collected. -/
theorem scrapeLoop_rerun (env : String → FetchRes) (m2h cssRel : String → String)
    (mdDir htmlDir : String) (n : Nat) :
    ∀ (urls : List String) (c1 c2 : Nat) (fs fs2 : FS) (es es2 : List Record),
      (∀ q, (scrapeLoop env m2h cssRel mdDir htmlDir n urls c1 fs es).fs.existsP q = true →
        fs2.existsP q = true) →
      (n = 0 ∨ (c1 ≤ c2 ∧ c2 < n)) →
      (scrapeLoop env m2h cssRel mdDir htmlDir n urls c2 fs2 es2).fs = fs2
      ∧ (scrapeLoop env m2h cssRel mdDir htmlDir n urls c2 fs2 es2).essays = es2 := by
  intro urls
  induction urls with
  | nil => intro c1 c2 fs fs2 es es2 hle hc; exact ⟨rfl, rfl⟩
  | cons url rest ih =>
    intro c1 c2 fs fs2 es es2 hle hc
    by_cases h1 : fs.existsP (mdPathOf mdDir url) = true
    · have hs1 := scrapeStep_exists env m2h cssRel mdDir htmlDir fs es url h1
      have hP2 : fs2.existsP (mdPathOf mdDir url) = true :=
        hle _ (existsP_scrapeLoop env m2h cssRel mdDir htmlDir n (url :: rest) c1 fs es h1)
      have hs2 := scrapeStep_exists env m2h cssRel mdDir htmlDir fs2 es2 url hP2
      rw [scrapeLoop_cons_counted hs2]
      by_cases hstop2 : n ≠ 0 ∧ c2 + 1 = n
      · rw [if_pos hstop2]; exact ⟨rfl, rfl⟩
      · rw [if_neg hstop2]
        rw [scrapeLoop_cons_counted hs1] at hle
        by_cases hstop1 : n ≠ 0 ∧ c1 + 1 = n
        · exact absurd (counts_stop_eq hc hstop1) hstop2
        · rw [if_neg hstop1] at hle
          exact ih (c1 + 1) (c2 + 1) fs fs2 es es2 hle (counts_bump_both hc hstop2)
    · rcases henv : env url with _ | _ | _ | p
      · -- fetch yields no soup
        have hs1 := scrapeStep_noSoup env m2h cssRel mdDir htmlDir fs es url
          (by simpa using h1) henv
        rw [scrapeLoop_cons_uncounted hs1] at hle
        by_cases h2 : fs2.existsP (mdPathOf mdDir url) = true
        · have hs2 := scrapeStep_exists env m2h cssRel mdDir htmlDir fs2 es2 url h2
          rw [scrapeLoop_cons_counted hs2]
          by_cases hstop2 : n ≠ 0 ∧ c2 + 1 = n
          · rw [if_pos hstop2]; exact ⟨rfl, rfl⟩
          · rw [if_neg hstop2]
            exact ih c1 (c2 + 1) fs fs2 es es2 hle (counts_bump_right hc hstop2)
        · have hs2 := scrapeStep_noSoup env m2h cssRel mdDir htmlDir fs2 es2 url
            (by simpa using h2) henv
          rw [scrapeLoop_cons_uncounted hs2]
          exact ih c1 c2 fs fs2 es es2 hle hc
      · -- extraction yields no data
        have hs1 := scrapeStep_noData env m2h cssRel mdDir htmlDir fs es url
          (by simpa using h1) henv
        rw [scrapeLoop_cons_uncounted hs1] at hle
        by_cases h2 : fs2.existsP (mdPathOf mdDir url) = true
        · have hs2 := scrapeStep_exists env m2h cssRel mdDir htmlDir fs2 es2 url h2
          rw [scrapeLoop_cons_counted hs2]
          by_cases hstop2 : n ≠ 0 ∧ c2 + 1 = n
          · rw [if_pos hstop2]; exact ⟨rfl, rfl⟩
          · rw [if_neg hstop2]
            exact ih c1 (c2 + 1) fs fs2 es es2 hle (counts_bump_right hc hstop2)
        · have hs2 := scrapeStep_noData env m2h cssRel mdDir htmlDir fs2 es2 url
            (by simpa using h2) henv
          rw [scrapeLoop_cons_uncounted hs2]
          exact ih c1 c2 fs fs2 es es2 hle hc
      · -- processing raises an exception
        have hs1 := scrapeStep_exn env m2h cssRel mdDir htmlDir fs es url
          (by simpa using h1) henv
        have hs2 : scrapeStep env m2h cssRel mdDir htmlDir fs2 es2 url = ⟨fs2, es2, true⟩ := by
          by_cases h2 : fs2.existsP (mdPathOf mdDir url) = true
          · exact scrapeStep_exists env m2h cssRel mdDir htmlDir fs2 es2 url h2
          · exact scrapeStep_exn env m2h cssRel mdDir htmlDir fs2 es2 url
              (by simpa using h2) henv
        rw [scrapeLoop_cons_counted hs2]
        by_cases hstop2 : n ≠ 0 ∧ c2 + 1 = n
        · rw [if_pos hstop2]; exact ⟨rfl, rfl⟩
        · rw [if_neg hstop2]
          rw [scrapeLoop_cons_counted hs1] at hle
          by_cases hstop1 : n ≠ 0 ∧ c1 + 1 = n
          · exact absurd (counts_stop_eq hc hstop1) hstop2
          · rw [if_neg hstop1] at hle
            exact ih (c1 + 1) (c2 + 1) fs fs2 es es2 hle (counts_bump_both hc hstop2)
      · -- successful extraction: the first run wrote the Markdown file
        have hs1 := scrapeStep_post env m2h cssRel mdDir htmlDir fs es url
          (by simpa using h1) henv
        have hfs1P : (save_to_html_file cssRel (save_to_file fs (mdPathOf mdDir url) p.md)
            (htmlPathOf htmlDir url) (m2h p.md)).existsP (mdPathOf mdDir url) = true := by
          unfold save_to_html_file
          exact existsP_write _ _ (existsP_save_to_file_self fs _ p.md)
        rw [scrapeLoop_cons_counted hs1] at hle
        by_cases hstop1 : n ≠ 0 ∧ c1 + 1 = n
        · rw [if_pos hstop1] at hle
          have hP2 : fs2.existsP (mdPathOf mdDir url) = true := hle _ hfs1P
          have hs2 := scrapeStep_exists env m2h cssRel mdDir htmlDir fs2 es2 url hP2
          rw [scrapeLoop_cons_counted hs2, if_pos (counts_stop_eq hc hstop1)]
          exact ⟨rfl, rfl⟩
        · rw [if_neg hstop1] at hle
          have hP2 : fs2.existsP (mdPathOf mdDir url) = true :=
            hle _ (existsP_scrapeLoop env m2h cssRel mdDir htmlDir n rest (c1 + 1) _ _ hfs1P)
          have hs2 := scrapeStep_exists env m2h cssRel mdDir htmlDir fs2 es2 url hP2
          rw [scrapeLoop_cons_counted hs2]
          by_cases hstop2 : n ≠ 0 ∧ c2 + 1 = n
          · rw [if_pos hstop2]; exact ⟨rfl, rfl⟩
          · rw [if_neg hstop2]
            exact ih (c1 + 1) (c2 + 1) _ fs2 _ es2 hle (counts_bump_both hc hstop2)

/-- C3: `save_to_file` on an already-existing path changes nothing, and
re-running the whole pipeline (same URL set, same fetch outcomes)
against the state a first run produced writes no new file and adds no
record to the ledger: the pipeline is idempotent on run states. -/
theorem pipeline_roundtrip_idempotent (env : String → FetchRes) (m2h cssRel : String → String)
    (mdDir htmlDir : String) (n : Nat) (urls : List String) (st : RunState) :
    (∀ (fs : FS) (p c : String), fs.existsP p = true → save_to_file fs p c = fs)
    ∧ runPipeline env m2h cssRel mdDir htmlDir n urls
        (runPipeline env m2h cssRel mdDir htmlDir n urls st)
      = runPipeline env m2h cssRel mdDir htmlDir n urls st := by
  constructor
  · intro fs p c h
    unfold save_to_file
    rw [if_pos h]
  · have hc : n = 0 ∨ (0 ≤ 0 ∧ 0 < n) := by
      rcases Nat.eq_zero_or_pos n with h | h
      · exact Or.inl h
      · exact Or.inr ⟨Nat.le_refl 0, h⟩
    have h := scrapeLoop_rerun env m2h cssRel mdDir htmlDir n urls 0 0 st.fs
      (scrapeLoop env m2h cssRel mdDir htmlDir n urls 0 st.fs []).fs [] []
      (fun _ hq => hq) hc
    show (⟨(scrapeLoop env m2h cssRel mdDir htmlDir n urls 0
        (scrapeLoop env m2h cssRel mdDir htmlDir n urls 0 st.fs []).fs []).fs,
      some (save_essays_data_to_json
        (some (save_essays_data_to_json st.ledger
          (scrapeLoop env m2h cssRel mdDir htmlDir n urls 0 st.fs []).essays))
        (scrapeLoop env m2h cssRel mdDir htmlDir n urls 0
          (scrapeLoop env m2h cssRel mdDir htmlDir n urls 0 st.fs []).fs []).essays)⟩ :
        RunState)
      = ⟨(scrapeLoop env m2h cssRel mdDir htmlDir n urls 0 st.fs []).fs,
         some (save_essays_data_to_json st.ledger
           (scrapeLoop env m2h cssRel mdDir htmlDir n urls 0 st.fs []).essays)⟩
    rw [h.1, h.2]
    simp [save_essays_data_to_json]

/-- Witness for C3 at a concrete run: one URL extracting successfully,
starting from an empty filesystem and no ledger file. -/
theorem pipeline_roundtrip_idempotent_w :
    save_to_file ⟨[("md/a.md", "x")]⟩ "md/a.md" "y" = ⟨[("md/a.md", "x")]⟩
    ∧ runPipeline (fun _ => FetchRes.post ⟨"t", "s", "0", "d", "m"⟩) id id "md" "html" 0
        ["https://p.e/p/a"]
        (runPipeline (fun _ => FetchRes.post ⟨"t", "s", "0", "d", "m"⟩) id id "md" "html" 0
          ["https://p.e/p/a"] ⟨⟨[]⟩, none⟩)
      = runPipeline (fun _ => FetchRes.post ⟨"t", "s", "0", "d", "m"⟩) id id "md" "html" 0
          ["https://p.e/p/a"] ⟨⟨[]⟩, none⟩ :=
  ⟨(pipeline_roundtrip_idempotent (fun _ => FetchRes.post ⟨"t", "s", "0", "d", "m"⟩) id id
      "md" "html" 0 ["https://p.e/p/a"] ⟨⟨[]⟩, none⟩).1 _ _ _ (by decide),
    (pipeline_roundtrip_idempotent (fun _ => FetchRes.post ⟨"t", "s", "0", "d", "m"⟩) id id
      "md" "html" 0 ["https://p.e/p/a"] ⟨⟨[]⟩, none⟩).2⟩

end Substack
